import Mathlib

/-!
Verification of the minbft repository's message layer (src/messages/messages.go)
and collaborator contracts (src/api/api.go), as a shallow embedding in Lean 4.

Bytes are modelled as List Nat, Go uint32/uint64 as Nat (no arithmetic in the
verified code can overflow: the methods only move field values around).
Mutating Go methods (AttachSignature, AttachUI) are modelled as functional
updates returning the updated value.
-/

namespace MinBFT

/-- Inner message of a Request.  The protobuf-generated struct is not under
src/; its shape is modelled from the spec data model
(Request: clientID, operation bytes, client timestamp) and from the accessors
used in messages.go (GetClientId). -/
structure Request_M where
  clientId : Nat
  seq : Nat
  operation : List Nat
deriving Repr, DecidableEq

/-- Request message: inner data plus an attached signature
(field Signature of the generated struct). -/
structure Request where
  msg : Request_M
  signature : List Nat
deriving Repr, DecidableEq

/-- Inner message of a Reply.  Modelled from the spec data model
(Reply: clientID, result bytes). -/
structure Reply_M where
  replicaId : Nat
  clientId : Nat
  result : List Nat
deriving Repr, DecidableEq

/-- Reply message: inner data plus an attached signature. -/
structure Reply where
  msg : Reply_M
  signature : List Nat
deriving Repr, DecidableEq

/-- Inner message of a Prepare: the fields read by messages.go
(GetView, GetReplicaId, GetRequest).  The ReplicaId field of a Prepare holds
the id of the primary that authored it (spec data model: primaryID). -/
structure Prepare_M where
  view : Nat
  replicaId : Nat
  request : Request
deriving Repr, DecidableEq

/-- Prepare message: inner data plus the attached UI (field ReplicaUi). -/
structure Prepare where
  msg : Prepare_M
  replicaUi : List Nat
deriving Repr, DecidableEq

/-- Inner message of a Commit: the fields read by messages.go
(GetView, GetReplicaId, GetPrimaryId, GetRequest, GetPrimaryUi). -/
structure Commit_M where
  view : Nat
  replicaId : Nat
  primaryId : Nat
  request : Request
  primaryUi : List Nat
deriving Repr, DecidableEq

/-- Commit message: inner data plus the attached UI of its author
(field ReplicaUi). -/
structure Commit where
  msg : Commit_M
  replicaUi : List Nat
deriving Repr, DecidableEq

/-- Length-prefixed encoding of a byte string, standing for the protobuf wire
encoding of a bytes (or embedded message) field. -/
def encBytes (b : List Nat) : List Nat := b.length :: b

/-- proto.Marshal of the inner Request message.  It reads only the fields of
Request_M, never the signature. -/
def Request_M.marshal (m : Request_M) : List Nat :=
  m.clientId :: m.seq :: encBytes m.operation

/-- Wire encoding of a full Request (inner message plus signature), used where
a Request is embedded in another message. -/
def Request.marshal (m : Request) : List Nat :=
  encBytes m.msg.marshal ++ encBytes m.signature

/-- proto.Marshal of the inner Reply message. -/
def Reply_M.marshal (m : Reply_M) : List Nat :=
  m.replicaId :: m.clientId :: encBytes m.result

/-- proto.Marshal of the inner Prepare message: reads only Prepare_M fields,
never the attached UI. -/
def Prepare_M.marshal (m : Prepare_M) : List Nat :=
  m.view :: m.replicaId :: encBytes m.request.marshal

/-- proto.Marshal of the inner Commit message: reads only Commit_M fields,
never the attached UI. -/
def Commit_M.marshal (m : Commit_M) : List Nat :=
  m.view :: m.replicaId :: m.primaryId :: encBytes m.request.marshal
    ++ encBytes m.primaryUi

/-- func (m *Request) ClientID() uint32 -/
def Request.ClientID (m : Request) : Nat := m.msg.clientId

/-- func (m *Request) Payload() []byte: serialized inner message, excluding
the signature. -/
def Request.Payload (m : Request) : List Nat := m.msg.marshal

/-- func (m *Request) SignatureBytes() []byte -/
def Request.SignatureBytes (m : Request) : List Nat := m.signature

/-- func (m *Request) AttachSignature(signature []byte) -/
def Request.AttachSignature (m : Request) (signature : List Nat) : Request :=
  { m with signature := signature }

/-- func (m *Reply) Payload() []byte -/
def Reply.Payload (m : Reply) : List Nat := m.msg.marshal

/-- func (m *Reply) SignatureBytes() []byte -/
def Reply.SignatureBytes (m : Reply) : List Nat := m.signature

/-- func (m *Reply) AttachSignature(signature []byte) -/
def Reply.AttachSignature (m : Reply) (signature : List Nat) : Reply :=
  { m with signature := signature }

/-- func (m *Prepare) ReplicaID() uint32: returns m.Msg.GetReplicaId(). -/
def Prepare.ReplicaID (m : Prepare) : Nat := m.msg.replicaId

/-- func (m *Prepare) Payload() []byte: serialized inner message, excluding
the attached UI. -/
def Prepare.Payload (m : Prepare) : List Nat := m.msg.marshal

/-- func (m *Prepare) UIBytes() []byte: returns m.GetReplicaUi(). -/
def Prepare.UIBytes (m : Prepare) : List Nat := m.replicaUi

/-- func (m *Prepare) AttachUI(ui []byte) -/
def Prepare.AttachUI (m : Prepare) (ui : List Nat) : Prepare :=
  { m with replicaUi := ui }

/-- func (m *Commit) ReplicaID() uint32: returns m.Msg.GetReplicaId(),
the author of the Commit, not the embedded primary id. -/
def Commit.ReplicaID (m : Commit) : Nat := m.msg.replicaId

/-- func (m *Commit) Payload() []byte -/
def Commit.Payload (m : Commit) : List Nat := m.msg.marshal

/-- func (m *Commit) UIBytes() []byte: returns m.GetReplicaUi(), the author's
own UI, not the embedded primary UI. -/
def Commit.UIBytes (m : Commit) : List Nat := m.replicaUi

/-- func (m *Commit) AttachUI(ui []byte) -/
def Commit.AttachUI (m : Commit) (ui : List Nat) : Commit :=
  { m with replicaUi := ui }

/-- func (m *Commit) Prepare() *Prepare: rebuilds the Prepare embedded in the
Commit, with View from the commit view, ReplicaId from the commit primaryId,
Request from the embedded request and ReplicaUi from the embedded primaryUi. -/
def Commit.Prepare (m : Commit) : Prepare :=
  { msg :=
      { view := m.msg.view
        replicaId := m.msg.primaryId
        request := m.msg.request }
    replicaUi := m.msg.primaryUi }

/-- func (m *Commit) Request() *Request: the embedded request. -/
def Commit.Request (m : Commit) : Request := m.msg.request

/-- The four concrete variants a Message envelope can carry
(the generated isMessage_Type implementations Message_Request,
Message_Reply, Message_Prepare, Message_Commit). -/
inductive MessageType where
  | request : Request → MessageType
  | reply : Reply → MessageType
  | prepare : Prepare → MessageType
  | commit : Commit → MessageType
deriving Repr, DecidableEq

/-- The generic wrapper Message.  Its Type field is a Go interface value:
none models a nil or unrecognized variant, which both WrapMessage and
UnwrapMessage treat as fatal. -/
structure Message where
  type : Option MessageType
deriving Repr, DecidableEq

/-- A dynamically typed Go value passed as interface argument: one of the
four concrete message types, or a value of any other type. -/
inductive GoValue where
  | request : Request → GoValue
  | reply : Reply → GoValue
  | prepare : Prepare → GoValue
  | commit : Commit → GoValue
  | other : GoValue
deriving Repr, DecidableEq

/-- The fatal local error raised by the default branches of WrapMessage and
UnwrapMessage (the Go code calls panic with the text Unknown message type). -/
inductive FatalError where
  | unknownMessageType
deriving Repr, DecidableEq

/-- func WrapMessage(m interface) *Message: wraps each of the four concrete
types into its own envelope variant; any other input hits the default branch
and is a fatal local error. -/
def WrapMessage : GoValue → Except FatalError Message
  | .request m => .ok { type := some (.request m) }
  | .reply m => .ok { type := some (.reply m) }
  | .prepare m => .ok { type := some (.prepare m) }
  | .commit m => .ok { type := some (.commit m) }
  | .other => .error .unknownMessageType

/-- func UnwrapMessage(m *Message) interface: returns the concrete message
held by the envelope; an unrecognized (or nil) variant hits the default
branch and is a fatal local error. -/
def UnwrapMessage (m : Message) : Except FatalError GoValue :=
  match m.type with
  | some (.request t) => .ok (.request t)
  | some (.reply t) => .ok (.reply t)
  | some (.prepare t) => .ok (.prepare t)
  | some (.commit t) => .ok (.commit t)
  | none => .error .unknownMessageType

/-- The envelope tag WrapMessage assigns: which of the four variants a
wrapped Message carries. -/
def Message.tag (m : Message) : Option (Fin 4) :=
  match m.type with
  | some (.request _) => some 0
  | some (.reply _) => some 1
  | some (.prepare _) => some 2
  | some (.commit _) => some 3
  | none => none

/-- The concrete type of a GoValue, for the four wrappable types. -/
def GoValue.kind : GoValue → Option (Fin 4)
  | .request _ => some 0
  | .reply _ => some 1
  | .prepare _ => some 2
  | .commit _ => some 3
  | .other => none

/-- A GoValue is wrappable when it is one of the four concrete message
types. -/
def GoValue.wrappable (v : GoValue) : Prop := v ≠ .other

instance : DecidablePred GoValue.wrappable := fun v =>
  inferInstanceAs (Decidable (v ≠ .other))

/-- Modelled from the spec: the protocol parameters obtained from the
Configer collaborator.  src/api/api.go declares only the interface
(N, F, CheckpointPeriod, Logsize, TimeoutRequest, TimeoutViewChange); no
implementation is under src/.  Durations are modelled as Nat. -/
structure Config where
  n : Nat
  f : Nat
  checkpointPeriod : Nat
  logsize : Nat
  timeoutRequest : Nat
  timeoutViewChange : Nat
deriving Repr, DecidableEq

/-- Startup configuration error. -/
inductive ConfigError where
  | logsizeNotAboveCheckpointPeriod
deriving Repr, DecidableEq

/-- Modelled from the spec: startup validation of the configuration.
The Logsize comment in src/api/api.go (must be larger than
CheckpointPeriod) and spec section 6 require a configuration whose Logsize
does not exceed CheckpointPeriod to be rejected at startup; the validating
code itself is not under src/. -/
def validateConfig (c : Config) : Except ConfigError Config :=
  if c.checkpointPeriod < c.logsize then .ok c
  else .error .logsizeNotAboveCheckpointPeriod

/-- A Configer instance is valid when startup validation accepts it. -/
def Config.valid (c : Config) : Prop := ∃ c2, validateConfig c = .ok c2

/-- Modelled from the spec: quorum = F + 1 distinct Commit-endorsing
replicas (spec section 4.4). -/
def quorumSize (cfg : Config) : Nat := cfg.f + 1

/-- Per-slot protocol state of the ordering state machine
(spec section 4.4). -/
inductive SlotState where
  | empty
  | prepared
  | committedLocally
  | quorumCommitted
  | executed
deriving Repr, DecidableEq

/-- Modelled from the spec: a Request Log slot (spec section 3): protocol
state, the request and primary UI fixed by the accepted Prepare, and the
ids of the replicas whose matching Commits were received, kept
duplicate-free (duplicates overwrite). -/
structure LogSlot where
  state : SlotState
  request : Request
  primaryUi : List Nat
  commits : List Nat
deriving Repr, DecidableEq

/-- Placeholder request stored in a slot that has not seen a Prepare. -/
def emptyRequest : Request := ⟨⟨0, 0, []⟩, []⟩

/-- A slot before any Prepare or Commit referenced its sequence number. -/
def emptySlot : LogSlot := ⟨.empty, emptyRequest, [], []⟩

/-- Modelled from the spec: the replica state seen by the ordering state
machine: the log slots by sequence number, and the trace of Deliver
invocations on the RequestConsumer (sequence number and delivered request),
in invocation order.  The protocol core is not under src/; this machine is
built from spec section 4.4. -/
structure ReplicaState where
  slots : Nat → LogSlot
  delivered : List (Nat × Request)

/-- The replica state before any message was handled. -/
def initialState : ReplicaState := ⟨fun _ => emptySlot, []⟩

/-- Modelled from the spec: one transition of the ordering state machine of
a single honest replica (spec section 4.4).  admitPrepare requires a valid
Prepare for an empty slot whose request does not already occupy a slot
(duplicate requests are answered from the cached Reply, never re-ordered);
localCommit records the replica's own Commit; recvCommit records a valid
Commit matching the slot's request and primary UI from a replica not yet
counted; reachQuorum fires once quorumSize distinct replicas endorsed the
slot; execute delivers the request to the RequestConsumer, only when every
lower slot is already executed. -/
inductive Step (cfg : Config) : ReplicaState → ReplicaState → Prop where
  | admitPrepare (s : ReplicaState) (seq : Nat) (p : Prepare) :
      (s.slots seq).state = .empty →
      (∀ m, (s.slots m).state ≠ .empty →
        (s.slots m).request ≠ p.msg.request) →
      Step cfg s
        ⟨Function.update s.slots seq
          ⟨.prepared, p.msg.request, p.replicaUi, []⟩, s.delivered⟩
  | localCommit (s : ReplicaState) (seq : Nat) :
      (s.slots seq).state = .prepared →
      Step cfg s
        ⟨Function.update s.slots seq
          { s.slots seq with state := .committedLocally }, s.delivered⟩
  | recvCommit (s : ReplicaState) (seq : Nat) (c : Commit) :
      ((s.slots seq).state = .prepared ∨
        (s.slots seq).state = .committedLocally) →
      c.msg.request = (s.slots seq).request →
      c.msg.primaryUi = (s.slots seq).primaryUi →
      c.msg.replicaId ∉ (s.slots seq).commits →
      Step cfg s
        ⟨Function.update s.slots seq
          { s.slots seq with
              commits := c.msg.replicaId :: (s.slots seq).commits },
          s.delivered⟩
  | reachQuorum (s : ReplicaState) (seq : Nat) :
      (s.slots seq).state = .committedLocally →
      quorumSize cfg ≤ (s.slots seq).commits.length →
      Step cfg s
        ⟨Function.update s.slots seq
          { s.slots seq with state := .quorumCommitted }, s.delivered⟩
  | execute (s : ReplicaState) (seq : Nat) :
      (s.slots seq).state = .quorumCommitted →
      (∀ m, m < seq → (s.slots m).state = .executed) →
      Step cfg s
        ⟨Function.update s.slots seq
          { s.slots seq with state := .executed },
          s.delivered ++ [(seq, (s.slots seq).request)]⟩

/-- States reachable by the ordering state machine from the initial
state. -/
inductive Reachable (cfg : Config) : ReplicaState → Prop where
  | init : Reachable cfg initialState
  | step {s t : ReplicaState} :
      Reachable cfg s → Step cfg s t → Reachable cfg t

/-- Inductive invariant of the ordering state machine: the executed slots
are exactly the sequence numbers below the number of Deliver invocations,
the i-th Deliver invocation delivered slot i with its request, and two
distinct occupied slots never hold the same request. -/
def Inv (s : ReplicaState) : Prop :=
  (∀ n, (s.slots n).state = .executed ↔ n < s.delivered.length) ∧
  (∀ i, ∀ h : i < s.delivered.length,
    s.delivered[i] = (i, (s.slots i).request)) ∧
  (∀ m n, m ≠ n → (s.slots m).state ≠ .empty → (s.slots n).state ≠ .empty →
    (s.slots m).request ≠ (s.slots n).request)

/-- Concrete configuration used by the witnesses: N = 4, F = 1. -/
def wCfg : Config := ⟨4, 1, 10, 20, 5, 7⟩

/-- Concrete request used by the witnesses. -/
def wRequest : Request := ⟨⟨1, 2, [3]⟩, [4]⟩

/-- Concrete Prepare for the witness trace: view 0, primary 0. -/
def wPrepare : Prepare := ⟨⟨0, 0, wRequest⟩, [9]⟩

/-- Concrete Commit from replica 1 matching wPrepare. -/
def wCommit1 : Commit := ⟨⟨0, 1, 0, wRequest, [9]⟩, [11]⟩

/-- Concrete Commit from replica 2 matching wPrepare. -/
def wCommit2 : Commit := ⟨⟨0, 2, 0, wRequest, [9]⟩, [12]⟩

/-- Slot 0 of the witness trace at a given protocol state and commit
set. -/
def wSlot (st : SlotState) (cs : List Nat) : LogSlot := ⟨st, wRequest, [9], cs⟩

/-- The state of the witness trace just before the quorum transition:
slot 0 committed locally with Commits from replicas 2 and 1. -/
def wMidState : ReplicaState :=
  ⟨Function.update
    (Function.update
      (Function.update
        (Function.update initialState.slots 0 (wSlot .prepared []))
        0 (wSlot .committedLocally []))
      0 (wSlot .committedLocally [1]))
    0 (wSlot .committedLocally [2, 1]), []⟩

/-- The final state of the witness trace: slot 0 executed and its request
delivered. -/
def wFinal : ReplicaState :=
  ⟨Function.update
    (Function.update wMidState.slots 0 (wSlot .quorumCommitted [2, 1]))
    0 (wSlot .executed [2, 1]),
    [(0, wRequest)]⟩

/-- Claim C2: for every message that is a Request, Reply, Prepare or Commit,
UnwrapMessage after WrapMessage returns the message itself, and WrapMessage
gives each of the four concrete types exactly one distinct envelope tag:
the tags of two wrapped values coincide exactly when the values have the
same concrete type, and every one of the four envelope tags is hit. -/
theorem wrapMessage_unwrapMessage_bijection (v w : GoValue)
    (hv : v.wrappable) (hw : w.wrappable) :
    (∃ mv, WrapMessage v = .ok mv ∧ UnwrapMessage mv = .ok v ∧
      mv.tag = v.kind ∧
      ∀ mw, WrapMessage w = .ok mw → (mv.tag = mw.tag ↔ v.kind = w.kind)) ∧
    (∀ t : Fin 4, ∃ u : GoValue, ∃ mu, WrapMessage u = .ok mu ∧
      mu.tag = some t) := by
  constructor
  · cases v with
    | other => exact absurd rfl hv
    | request m =>
        refine ⟨_, rfl, rfl, rfl, ?_⟩
        cases w <;> first
          | exact absurd rfl hw
          | (intro mw hmw; cases hmw; simp [Message.tag, GoValue.kind])
    | reply m =>
        refine ⟨_, rfl, rfl, rfl, ?_⟩
        cases w <;> first
          | exact absurd rfl hw
          | (intro mw hmw; cases hmw; simp [Message.tag, GoValue.kind])
    | prepare m =>
        refine ⟨_, rfl, rfl, rfl, ?_⟩
        cases w <;> first
          | exact absurd rfl hw
          | (intro mw hmw; cases hmw; simp [Message.tag, GoValue.kind])
    | commit m =>
        refine ⟨_, rfl, rfl, rfl, ?_⟩
        cases w <;> first
          | exact absurd rfl hw
          | (intro mw hmw; cases hmw; simp [Message.tag, GoValue.kind])
  · intro t
    match t with
    | 0 => exact ⟨.request ⟨⟨0, 0, []⟩, []⟩, _, rfl, rfl⟩
    | 1 => exact ⟨.reply ⟨⟨0, 0, []⟩, []⟩, _, rfl, rfl⟩
    | 2 => exact ⟨.prepare ⟨⟨0, 0, ⟨⟨0, 0, []⟩, []⟩⟩, []⟩, _, rfl, rfl⟩
    | 3 => exact ⟨.commit ⟨⟨0, 0, 0, ⟨⟨0, 0, []⟩, []⟩, []⟩, []⟩, _, rfl, rfl⟩

/-- Witness for C2 at concrete inputs: a Request and a Prepare. -/
theorem wrapMessage_unwrapMessage_bijection_witness :
    GoValue.wrappable (.request ⟨⟨1, 2, [3]⟩, [4]⟩) ∧
    GoValue.wrappable (.prepare ⟨⟨0, 1, ⟨⟨1, 2, [3]⟩, [4]⟩⟩, [5]⟩) ∧
    ((∃ mv, WrapMessage (.request ⟨⟨1, 2, [3]⟩, [4]⟩) = .ok mv ∧
      UnwrapMessage mv = .ok (.request ⟨⟨1, 2, [3]⟩, [4]⟩) ∧
      mv.tag = GoValue.kind (.request ⟨⟨1, 2, [3]⟩, [4]⟩) ∧
      ∀ mw, WrapMessage (.prepare ⟨⟨0, 1, ⟨⟨1, 2, [3]⟩, [4]⟩⟩, [5]⟩) = .ok mw →
        (mv.tag = mw.tag ↔ GoValue.kind (.request ⟨⟨1, 2, [3]⟩, [4]⟩) =
          GoValue.kind (.prepare ⟨⟨0, 1, ⟨⟨1, 2, [3]⟩, [4]⟩⟩, [5]⟩))) ∧
    (∀ t : Fin 4, ∃ u : GoValue, ∃ mu, WrapMessage u = .ok mu ∧
      mu.tag = some t)) :=
  ⟨by decide, by decide,
    wrapMessage_unwrapMessage_bijection _ _ (by decide) (by decide)⟩

/-- Claim C3: WrapMessage on any input that is not one of the four concrete
message types raises a fatal local error and returns no envelope, and
UnwrapMessage on a Message whose Type is not one of the four recognized
variants raises a fatal local error and returns no value. -/
theorem wrapMessage_unwrapMessage_fatal_on_unknown :
    (∀ v : GoValue, ¬ v.wrappable →
      WrapMessage v = .error .unknownMessageType) ∧
    (∀ m : Message, (∀ t, m.type ≠ some t) →
      UnwrapMessage m = .error .unknownMessageType) := by
  constructor
  · intro v hv
    cases v <;> first
      | rfl
      | exact absurd (by intro h; cases h) hv
  · intro m hm
    cases hmt : m.type with
    | none => simp [UnwrapMessage, hmt]
    | some t => exact absurd hmt (hm t)

/-- Witness for C3 at concrete inputs: the value of another type and the
envelope with a nil variant. -/
theorem wrapMessage_unwrapMessage_fatal_on_unknown_witness :
    (¬ GoValue.wrappable .other ∧
      WrapMessage .other = .error .unknownMessageType) ∧
    ((∀ t, (Message.mk none).type ≠ some t) ∧
      UnwrapMessage (Message.mk none) = .error .unknownMessageType) :=
  by
  refine ⟨⟨?_, ?_⟩, ?_, ?_⟩
  · decide
  · exact wrapMessage_unwrapMessage_fatal_on_unknown.1 GoValue.other (by decide)
  · intro t h
    cases h
  · exact wrapMessage_unwrapMessage_fatal_on_unknown.2 (Message.mk none)
      (fun t h => by cases h)

/-- Claim C4: Commit.Prepare rebuilds a Prepare whose view is the commit
view, whose replica field is the commit primaryId, whose request is the
embedded request and whose UI bytes are the embedded primaryUi, and
Commit.Request returns that same embedded request. -/
theorem commit_prepare_reconstruction (c : Commit) :
    (c.Prepare).msg.view = c.msg.view ∧
    (c.Prepare).msg.replicaId = c.msg.primaryId ∧
    (c.Prepare).msg.request = c.msg.request ∧
    (c.Prepare).UIBytes = c.msg.primaryUi ∧
    c.Request = c.msg.request :=
  ⟨rfl, rfl, rfl, rfl, rfl⟩

/-- Claim C5: on a Prepare the MessageWithUI accessors read the authoring
primary: ReplicaID reads the inner replicaId field, which Commit.Prepare
fills with the primary id; UIBytes reads the attached UI, which
Commit.Prepare fills with the primary UI; and Payload serializes the inner
message only, unchanged by attaching a UI. -/
theorem prepare_accessors_identify_primary (p : Prepare) (c : Commit)
    (u : List Nat) :
    p.ReplicaID = p.msg.replicaId ∧
    p.UIBytes = p.replicaUi ∧
    p.Payload = p.msg.marshal ∧
    (p.AttachUI u).Payload = p.Payload ∧
    (c.Prepare).ReplicaID = c.msg.primaryId ∧
    (c.Prepare).UIBytes = c.msg.primaryUi :=
  ⟨rfl, rfl, rfl, rfl, rfl, rfl⟩

/-- Claim C6: on a Commit the MessageWithUI accessors read the commit
author, not the embedded primary: ReplicaID reads the inner replicaId field
and UIBytes the attached replicaUi field; at a commit whose author differs
from its primary the accessors differ from the embedded primary fields. -/
theorem commit_accessors_identify_author :
    (∀ c : Commit, c.ReplicaID = c.msg.replicaId ∧ c.UIBytes = c.replicaUi) ∧
    (∃ c : Commit, c.ReplicaID ≠ c.msg.primaryId ∧
      c.UIBytes ≠ c.msg.primaryUi) :=
  ⟨fun _ => ⟨rfl, rfl⟩,
    ⟨⟨⟨0, 2, 1, ⟨⟨0, 0, []⟩, []⟩, [7]⟩, [9]⟩, by decide, by decide⟩⟩

/-- Claim C9: attaching a signature or UI and reading it back is a round
trip, for all four message types. -/
theorem attach_accessor_roundtrip (rq : Request) (rp : Reply) (p : Prepare)
    (c : Commit) (s u : List Nat) :
    (rq.AttachSignature s).SignatureBytes = s ∧
    (rp.AttachSignature s).SignatureBytes = s ∧
    (p.AttachUI u).UIBytes = u ∧
    (c.AttachUI u).UIBytes = u :=
  ⟨rfl, rfl, rfl, rfl⟩

/-- Claim C10: AttachSignature and AttachUI modify only the attached tag:
payloads (and ClientID for Request, ReplicaID for Prepare and Commit) are
unchanged, because Payload serializes only the inner message. -/
theorem attach_frame (rq : Request) (rp : Reply) (p : Prepare) (c : Commit)
    (s u : List Nat) :
    (rq.AttachSignature s).Payload = rq.Payload ∧
    (rq.AttachSignature s).ClientID = rq.ClientID ∧
    (rp.AttachSignature s).Payload = rp.Payload ∧
    (p.AttachUI u).Payload = p.Payload ∧
    (p.AttachUI u).ReplicaID = p.ReplicaID ∧
    (c.AttachUI u).Payload = c.Payload ∧
    (c.AttachUI u).ReplicaID = c.ReplicaID :=
  ⟨rfl, rfl, rfl, rfl, rfl, rfl, rfl⟩

/-- The initial state satisfies the ordering invariant. -/
lemma inv_initial : Inv initialState := by
  refine ⟨?_, ?_, ?_⟩
  · intro n
    simp [initialState, emptySlot]
  · intro i h
    simp [initialState] at h
  · intro m n hmn hm
    simp [initialState, emptySlot] at hm

/-- Updating a slot to a non-executed value preserves the invariant,
provided the old value was not executed and the new request does not clash
with any other occupied slot. -/
lemma inv_update_nonexec {s : ReplicaState} (hInv : Inv s) (seq : Nat)
    (v : LogSlot) (hold : (s.slots seq).state ≠ .executed)
    (hv : v.state ≠ .executed)
    (hvC : ∀ n, n ≠ seq → (s.slots n).state ≠ .empty → v.state ≠ .empty →
      v.request ≠ (s.slots n).request) :
    Inv ⟨Function.update s.slots seq v, s.delivered⟩ := by
  obtain ⟨hA, hB, hC⟩ := hInv
  have hns : ¬ seq < s.delivered.length := fun hlt => hold ((hA seq).mpr hlt)
  refine ⟨?_, ?_, ?_⟩
  · intro n
    show (Function.update s.slots seq v n).state = _ ↔ _
    by_cases hn : n = seq
    · subst hn
      rw [Function.update_same]
      exact ⟨fun hx => absurd hx hv, fun hx => absurd hx hns⟩
    · rw [Function.update_noteq hn]
      exact hA n
  · intro i hi
    have hexec : (s.slots i).state = .executed := (hA i).mpr hi
    have hne : i ≠ seq := fun he => hold (he ▸ hexec)
    show s.delivered[i] = (i, (Function.update s.slots seq v i).request)
    rw [Function.update_noteq hne]
    exact hB i hi
  · intro m n hmn hm hn
    revert hm hn
    show (Function.update s.slots seq v m).state ≠ _ →
      (Function.update s.slots seq v n).state ≠ _ →
      (Function.update s.slots seq v m).request ≠
        (Function.update s.slots seq v n).request
    by_cases hms : m = seq
    · subst hms
      have hnm : n ≠ m := fun he => hmn he.symm
      rw [Function.update_same, Function.update_noteq hnm]
      intro hm hn
      exact hvC n hnm hn hm
    · by_cases hns2 : n = seq
      · subst hns2
        rw [Function.update_same, Function.update_noteq hms]
        intro hm hn
        exact fun he => hvC m hms hm hn he.symm
      · rw [Function.update_noteq hms, Function.update_noteq hns2]
        exact hC m n hmn

/-- The execute transition preserves the invariant. -/
lemma inv_update_exec {s : ReplicaState} (hInv : Inv s) (seq : Nat)
    (hq : (s.slots seq).state = .quorumCommitted)
    (hall : ∀ m, m < seq → (s.slots m).state = .executed) :
    Inv ⟨Function.update s.slots seq { s.slots seq with state := .executed },
      s.delivered ++ [(seq, (s.slots seq).request)]⟩ := by
  obtain ⟨hA, hB, hC⟩ := hInv
  have hold : (s.slots seq).state ≠ .executed := by
    rw [hq]
    intro hx
    cases hx
  have hns : ¬ seq < s.delivered.length := fun hlt => hold ((hA seq).mpr hlt)
  have hks : seq ≤ s.delivered.length := by
    by_contra hgt
    have hlt : s.delivered.length < seq := Nat.lt_of_not_le hgt
    exact Nat.lt_irrefl _ ((hA s.delivered.length).mp (hall _ hlt))
  have hseqk : seq = s.delivered.length :=
    Nat.le_antisymm hks (Nat.le_of_not_lt hns)
  have hlen : (s.delivered ++ [(seq, (s.slots seq).request)]).length =
      seq + 1 := by simp [← hseqk]
  refine ⟨?_, ?_, ?_⟩
  · intro n
    show (Function.update s.slots seq _ n).state = _ ↔ _
    rw [hlen]
    by_cases hn : n = seq
    · subst hn
      rw [Function.update_same]
      exact ⟨fun _ => Nat.lt_succ_self n, fun _ => rfl⟩
    · rw [Function.update_noteq hn, hA n, ← hseqk]
      omega
  · intro i hi
    rw [hlen] at hi
    show (s.delivered ++ [(seq, (s.slots seq).request)])[i] =
      (i, (Function.update s.slots seq _ i).request)
    by_cases h3 : i = seq
    · subst h3
      rw [List.getElem_concat_length _ _ _ hseqk, Function.update_same]
    · have h4 : i < s.delivered.length := by omega
      rw [List.getElem_append_left h4, Function.update_noteq h3]
      exact hB i h4
  · intro m n hmn hm hn
    revert hm hn
    show (Function.update s.slots seq _ m).state ≠ _ →
      (Function.update s.slots seq _ n).state ≠ _ →
      (Function.update s.slots seq _ m).request ≠
        (Function.update s.slots seq _ n).request
    have hqe : (s.slots seq).state ≠ .empty := by
      rw [hq]
      intro hx
      cases hx
    by_cases hms : m = seq
    · subst hms
      have hnm : n ≠ m := fun he => hmn he.symm
      rw [Function.update_same, Function.update_noteq hnm]
      intro _ hn
      exact hC m n hmn hqe hn
    · by_cases hns2 : n = seq
      · subst hns2
        rw [Function.update_same, Function.update_noteq hms]
        intro hm _
        exact hC m n hmn hm hqe
      · rw [Function.update_noteq hms, Function.update_noteq hns2]
        exact hC m n hmn

/-- Every transition of the ordering machine preserves the invariant. -/
lemma inv_preserved {cfg : Config} {s t : ReplicaState} (hs : Step cfg s t)
    (h : Inv s) : Inv t := by
  cases hs with
  | admitPrepare seq p hempty hfresh =>
      refine inv_update_nonexec h seq _ ?_ ?_ ?_
      · rw [hempty]
        intro hx
        cases hx
      · intro hx
        cases hx
      · intro n hn hne _
        exact fun he => hfresh n hne he.symm
  | localCommit seq hprep =>
      refine inv_update_nonexec h seq _ ?_ ?_ ?_
      · rw [hprep]
        intro hx
        cases hx
      · intro hx
        cases hx
      · intro n hn hne _
        have hse : (s.slots seq).state ≠ .empty := by
          rw [hprep]
          intro hx
          cases hx
        exact h.2.2 seq n (fun he => hn he.symm) hse hne
  | recvCommit seq c hst hreq hui hnotin =>
      refine inv_update_nonexec h seq _ ?_ ?_ ?_
      · rcases hst with h1 | h1 <;> (rw [h1]; intro hx; cases hx)
      · show (s.slots seq).state ≠ .executed
        rcases hst with h1 | h1 <;> (rw [h1]; intro hx; cases hx)
      · intro n hn hne _
        have hse : (s.slots seq).state ≠ .empty := by
          rcases hst with h1 | h1 <;> (rw [h1]; intro hx; cases hx)
        exact h.2.2 seq n (fun he => hn he.symm) hse hne
  | reachQuorum seq hcl hquorum =>
      refine inv_update_nonexec h seq _ ?_ ?_ ?_
      · rw [hcl]
        intro hx
        cases hx
      · intro hx
        cases hx
      · intro n hn hne _
        have hse : (s.slots seq).state ≠ .empty := by
          rw [hcl]
          intro hx
          cases hx
        exact h.2.2 seq n (fun he => hn he.symm) hse hne
  | execute seq hq hall => exact inv_update_exec h seq hq hall

/-- Every reachable state of the ordering machine satisfies the
invariant. -/
lemma inv_reachable {cfg : Config} {s : ReplicaState}
    (h : Reachable cfg s) : Inv s := by
  induction h with
  | init => exact inv_initial
  | step _ hs ih => exact inv_preserved hs ih

/-- The witness trace: admit a Prepare for slot 0, commit locally, receive
matching Commits from replicas 1 and 2, reach the quorum of F + 1 = 2, and
execute, delivering the request at sequence number 0. -/
lemma wFinal_reachable : Reachable wCfg wFinal := by
  have h0 : Reachable wCfg initialState := Reachable.init
  have h1 := Reachable.step h0
    (Step.admitPrepare initialState 0 wPrepare rfl (fun m h => absurd rfl h))
  have h2 := Reachable.step h1 (Step.localCommit _ 0 rfl)
  have h3 := Reachable.step h2
    (Step.recvCommit _ 0 wCommit1 (Or.inr rfl) rfl rfl (by decide))
  have h4 := Reachable.step h3
    (Step.recvCommit _ 0 wCommit2 (Or.inr rfl) rfl rfl (by decide))
  have h5 := Reachable.step h4 (Step.reachQuorum _ 0 rfl (by decide))
  have h6 := Reachable.step h5
    (Step.execute _ 0 rfl (fun m h => absurd h (Nat.not_lt_zero m)))
  exact h6

/-- Claim C1: in every reachable state of the ordering machine, the trace of
Deliver invocations on the RequestConsumer hits each sequence number at most
once, strictly in sequence order (it is exactly the initial segment of the
sequence numbers), and no logically distinct request is delivered twice. -/
theorem deliver_at_most_once_in_order (cfg : Config) (s : ReplicaState)
    (h : Reachable cfg s) :
    s.delivered.map Prod.fst = List.range s.delivered.length ∧
    (s.delivered.map Prod.snd).Nodup := by
  obtain ⟨hA, hB, hC⟩ := inv_reachable h
  constructor
  · apply List.ext_getElem
    · simp
    · intro i h1 h2
      have hi : i < s.delivered.length := by simpa using h1
      simp only [List.getElem_map, List.getElem_range, hB i hi]
  · rw [List.nodup_iff_injective_getElem]
    rintro ⟨a, ha⟩ ⟨b, hb⟩ hab
    have ha2 : a < s.delivered.length := by simpa using ha
    have hb2 : b < s.delivered.length := by simpa using hb
    simp only [List.getElem_map, hB a ha2, hB b hb2] at hab
    have hea : (s.slots a).state = .executed := (hA a).mpr ha2
    have heb : (s.slots b).state = .executed := (hA b).mpr hb2
    have hna : (s.slots a).state ≠ .empty := by
      rw [hea]
      intro hx
      cases hx
    have hnb : (s.slots b).state ≠ .empty := by
      rw [heb]
      intro hx
      cases hx
    apply Fin.ext
    show a = b
    by_contra hne
    exact hC a b hne hna hnb hab

/-- Witness for C1: a complete 6-step run delivering the request at
sequence 0 with a quorum of F + 1 = 2 Commits. -/
theorem deliver_at_most_once_in_order_witness :
    Reachable wCfg wFinal ∧
    (wFinal.delivered.map Prod.fst = List.range wFinal.delivered.length ∧
      (wFinal.delivered.map Prod.snd).Nodup) :=
  ⟨wFinal_reachable,
    deliver_at_most_once_in_order wCfg wFinal wFinal_reachable⟩

/-- Claim C7: from a slot in state CommittedLocally, a transition of the
ordering machine puts it in QuorumCommitted exactly when matching Commits
from F + 1 distinct replicas have been recorded, F being supplied by the
configuration collaborator; quorumSize is F + 1. -/
theorem quorum_transition_iff (cfg : Config) (s : ReplicaState) (seq : Nat)
    (h : (s.slots seq).state = .committedLocally) :
    ((∃ t, Step cfg s t ∧ (t.slots seq).state = .quorumCommitted) ↔
      cfg.f + 1 ≤ (s.slots seq).commits.length) ∧
    quorumSize cfg = cfg.f + 1 := by
  refine ⟨⟨?_, ?_⟩, rfl⟩
  · rintro ⟨t, hst, hq⟩
    cases hst with
    | admitPrepare seq2 p hemp hfresh =>
        have hq2 : (Function.update s.slots seq2
            ⟨.prepared, p.msg.request, p.replicaUi, []⟩ seq).state =
              .quorumCommitted := hq
        by_cases he : seq = seq2
        · subst he
          rw [h] at hemp
          cases hemp
        · rw [Function.update_noteq he, h] at hq2
          cases hq2
    | localCommit seq2 hprep =>
        have hq2 : (Function.update s.slots seq2
            { s.slots seq2 with state := .committedLocally } seq).state =
              .quorumCommitted := hq
        by_cases he : seq = seq2
        · subst he
          rw [Function.update_same] at hq2
          cases hq2
        · rw [Function.update_noteq he, h] at hq2
          cases hq2
    | recvCommit seq2 c hst2 hreq hui hnotin =>
        have hq2 : (Function.update s.slots seq2
            { s.slots seq2 with
                commits := c.msg.replicaId :: (s.slots seq2).commits }
              seq).state = .quorumCommitted := hq
        by_cases he : seq = seq2
        · subst he
          rw [Function.update_same] at hq2
          rw [show ({ s.slots seq with
              commits := c.msg.replicaId :: (s.slots seq).commits } :
                LogSlot).state = (s.slots seq).state from rfl, h] at hq2
          cases hq2
        · rw [Function.update_noteq he, h] at hq2
          cases hq2
    | reachQuorum seq2 hcl hquorum =>
        by_cases he : seq = seq2
        · subst he
          exact hquorum
        · have hq2 : (Function.update s.slots seq2
              { s.slots seq2 with state := .quorumCommitted } seq).state =
                .quorumCommitted := hq
          rw [Function.update_noteq he, h] at hq2
          cases hq2
    | execute seq2 hqc hall =>
        have hq2 : (Function.update s.slots seq2
            { s.slots seq2 with state := .executed } seq).state =
              .quorumCommitted := hq
        by_cases he : seq = seq2
        · subst he
          rw [h] at hqc
          cases hqc
        · rw [Function.update_noteq he, h] at hq2
          cases hq2
  · intro hlen
    refine ⟨_, Step.reachQuorum s seq h hlen, ?_⟩
    show (Function.update s.slots seq
      { s.slots seq with state := .quorumCommitted } seq).state = _
    rw [Function.update_same]

/-- Witness for C7: in the witness trace state with slot 0 committed locally
and Commits from replicas 2 and 1, the quorum transition is enabled exactly
at threshold F + 1 = 2. -/
theorem quorum_transition_iff_witness :
    (wMidState.slots 0).state = .committedLocally ∧
    (((∃ t, Step wCfg wMidState t ∧ (t.slots 0).state = .quorumCommitted) ↔
      wCfg.f + 1 ≤ (wMidState.slots 0).commits.length) ∧
    quorumSize wCfg = wCfg.f + 1) :=
  ⟨rfl, quorum_transition_iff wCfg wMidState 0 rfl⟩

/-- Claim C8: a Configer instance is valid exactly when its Logsize strictly
exceeds its CheckpointPeriod, and a configuration violating this is rejected
by startup validation. -/
theorem config_logsize_gt_checkpointPeriod (c : Config) :
    (c.valid ↔ c.checkpointPeriod < c.logsize) ∧
    (¬ c.checkpointPeriod < c.logsize →
      validateConfig c = .error .logsizeNotAboveCheckpointPeriod) := by
  constructor
  · constructor
    · rintro ⟨c2, hc⟩
      by_cases hcl : c.checkpointPeriod < c.logsize
      · exact hcl
      · rw [validateConfig, if_neg hcl] at hc
        cases hc
    · intro hcl
      exact ⟨c, by rw [validateConfig, if_pos hcl]⟩
  · intro hcl
    rw [validateConfig, if_neg hcl]

/-- Witness for C8: the concrete configuration with CheckpointPeriod 10 and
Logsize 20 is valid and satisfies the bound; a configuration with Logsize 10
and CheckpointPeriod 10 is rejected. -/
theorem config_logsize_gt_checkpointPeriod_witness :
    (Config.valid wCfg ∧ wCfg.checkpointPeriod < wCfg.logsize) ∧
    (¬ (Config.mk 4 1 10 10 5 7).checkpointPeriod <
        (Config.mk 4 1 10 10 5 7).logsize ∧
      validateConfig (Config.mk 4 1 10 10 5 7) =
        .error .logsizeNotAboveCheckpointPeriod) :=
  ⟨⟨⟨wCfg, rfl⟩,
      (config_logsize_gt_checkpointPeriod wCfg).1.mp ⟨wCfg, rfl⟩⟩,
    ⟨by decide,
      (config_logsize_gt_checkpointPeriod (Config.mk 4 1 10 10 5 7)).2
        (by decide)⟩⟩

end MinBFT
